import Mathlib

/-! Verification of the identifier-extraction pipeline of this repository
(src/main.py, src/main_1.py, src/main_2.py).  Strings are modelled as
lists of characters; the Python string methods the code uses (upper,
strip, find, in, replace) are embedded below on that model, restricted
to the ASCII range the pipeline handles. -/

/-- ASCII uppercase map: Python str.upper on the ASCII range.
Characters outside a-z are left unchanged. -/
def upperChar (c : Char) : Char :=
  if 97 ≤ c.toNat ∧ c.toNat ≤ 122 then Char.ofNat (c.toNat - 32) else c

/-- Python str.upper over a whole string. -/
def upperStr (s : List Char) : List Char := s.map upperChar

/-- Membership in string.ascii_letters + string.digits, the valid_chars
set of get_alphanumeric_block in src/main.py line 111. -/
def validChar (c : Char) : Bool :=
  (97 ≤ c.toNat && c.toNat ≤ 122) || (65 ≤ c.toNat && c.toNat ≤ 90)
    || (48 ≤ c.toNat && c.toNat ≤ 57)

/-- The character class [A-Z0-9] of the cleanup regex in
src/main_1.py line 144. -/
def upperAlnum (c : Char) : Bool :=
  (65 ≤ c.toNat && c.toNat ≤ 90) || (48 ≤ c.toNat && c.toNat ≤ 57)

/-- ASCII whitespace recognized by Python str.strip. -/
def pyWs (c : Char) : Bool :=
  c.toNat = 32 || c.toNat = 9 || c.toNat = 10 || c.toNat = 13
    || c.toNat = 11 || c.toNat = 12

/-- Python str.strip: drop leading and trailing whitespace. -/
def stripStr (s : List Char) : List Char :=
  ((s.dropWhile pyWs).reverse.dropWhile pyWs).reverse

/-- Python str.find: index of the first occurrence of pat in hay,
none when absent (Python returns -1; `pat in hay` is `isSome`). -/
def firstIdx : List Char → List Char → Option Nat
  | [], pat => if pat.isPrefixOf ([] : List Char) then some 0 else none
  | a :: rest, pat =>
    if pat.isPrefixOf (a :: rest) then some 0
    else Option.map (fun n => n + 1) (firstIdx rest pat)

/-- Python substring membership `pat in hay`. -/
def containsSub (hay pat : List Char) : Bool := (firstIdx hay pat).isSome

/-- Python single-character str.replace, used for the newline and
carriage-return removal in the text extractors. -/
def replaceChar (a b : Char) (s : List Char) : List Char :=
  s.map (fun c => if c = a then b else c)

/-- Python str.replace of two consecutive spaces by one: a single
left-to-right pass over non-overlapping occurrences, not a fixpoint. -/
def replaceDoubleSpace : List Char → List Char
  | [] => []
  | [c] => [c]
  | c1 :: c2 :: rest =>
    if c1 = ' ' ∧ c2 = ' ' then ' ' :: replaceDoubleSpace rest
    else c1 :: replaceDoubleSpace (c2 :: rest)

/-- Per-page normalization applied by all three extractors
(src/main.py line 135, src/main_1.py line 102, src/main_2.py line 146):
replace newline and carriage return by a space, then collapse double
spaces in one pass. -/
def normalizePage (p : List Char) : List Char :=
  replaceDoubleSpace (replaceChar '\r' ' ' (replaceChar '\n' ' ' p))

/-- The page loop of the text extractors: full_text starts empty and
each page's normalized text is appended. -/
def extractFullTextLoop : List (List Char) → List Char → List Char
  | [], acc => acc
  | p :: ps, acc => extractFullTextLoop ps (acc ++ normalizePage p)

/-- Text Extractor: concatenation of normalized page texts.  A PDF is
modelled as the list of raw per-page texts produced by the PDF reader. -/
def extractFullText (pages : List (List Char)) : List Char :=
  extractFullTextLoop pages []

/-- The sentinel returned by the single-field extraction paths. -/
def sentinelNotFound : List Char := "BL_Number_Not_Found".toList

/-- get_alphanumeric_block of src/main.py lines 107-121: the inner
for-loop, carrying the accumulated identifier bl_id. -/
def getAlphanumericBlockLoop : List Char → List Char → List Char
  | [], bl_id => bl_id
  | c :: rest, bl_id =>
    if validChar c then getAlphanumericBlockLoop rest (bl_id ++ [c])
    else if bl_id ≠ [] then bl_id
    else getAlphanumericBlockLoop rest bl_id

/-- get_alphanumeric_block of src/main.py: starting at start_index, grab
the first continuous block of letters and digits. -/
def getAlphanumericBlock (text : List Char) (start_index : Nat) : List Char :=
  getAlphanumericBlockLoop (text.drop start_index) []

/-- The keyword anchor list of src/main.py line 140, in source order. -/
def keywords : List (List Char) :=
  ["B/L:".toList, "BL:".toList, "B/L No.".toList,
   "Bill of Lading Number:".toList, "Shipment No.".toList]

/-- The keyword loop of extract_bl_number_from_pdf (src/main.py lines
145-164): for each keyword in order, if its uppercase form occurs in the
uppercase text, extract the following alphanumeric block from the
original text; return BL-(block uppercased) when the block is nonempty,
otherwise continue; return the sentinel when all keywords fail. -/
def keywordSearch : List (List Char) → List Char → List Char → List Char
  | [], _, _ => sentinelNotFound
  | kw :: rest, full_text, full_text_upper =>
    match firstIdx full_text_upper (upperStr kw) with
    | none => keywordSearch rest full_text full_text_upper
    | some start_index =>
      let found_id := upperStr (getAlphanumericBlock full_text
          (start_index + (upperStr kw).length))
      if found_id = [] then keywordSearch rest full_text full_text_upper
      else "BL-".toList ++ found_id

/-- Pattern-Based Identifier Finder on already-extracted text
(src/main.py lines 137-164). -/
def extract_bl_number_text (full_text : List Char) : List Char :=
  keywordSearch keywords full_text (upperStr full_text)

/-- extract_bl_number_from_pdf of src/main.py, with the PDF modelled as
its list of per-page raw texts. -/
def extract_bl_number_from_pdf (pages : List (List Char)) : List Char :=
  extract_bl_number_text (extractFullText pages)

/-- The leftmost-then-greedy search of the cleanup regex ([A-Z0-9]\x7b8,\x7d)
in src/main_1.py line 144: at each position in turn, take the maximal
run of uppercase letters/digits starting there; the first position whose
run has length at least 8 yields that whole run. -/
def firstRun8 : List Char → Option (List Char)
  | [] => none
  | c :: rest =>
    if 8 ≤ (List.takeWhile upperAlnum (c :: rest)).length then
      some (List.takeWhile upperAlnum (c :: rest))
    else firstRun8 rest

/-- The response-sanitization tail of extract_bl_number_llm_tool
(src/main_1.py lines 135-148): uppercase and strip the raw model text,
map either sentinel spelling to the canonical sentinel, otherwise prefix
BL- to the first run of 8 or more uppercase letters/digits, or to the
whole cleaned text when no such run exists. -/
def cleanLLMResponse (raw : List Char) : List Char :=
  let extracted_bl := upperStr (stripStr raw)
  if extracted_bl = "BL_NUMBER_NOT_FOUND".toList
      ∨ extracted_bl = "BL NUMBER NOT FOUND".toList then
    sentinelNotFound
  else
    match firstRun8 extracted_bl with
    | some run => "BL-".toList ++ run
    | none => "BL-".toList ++ extracted_bl

/-- extract_bl_number_llm_tool of src/main_1.py lines 92-152.  The PDF
is modelled as its per-page texts; the model call is modelled as an
oracle outcome: an exception of any type (everything raised inside the
try block, caught at line 150) or the response text.  Blank extracted
text short-circuits to the sentinel before the model is consulted, an
error maps to the sentinel, and a response goes through the sanitizer. -/
def extract_bl_number_llm_tool {E : Type} (pages : List (List Char))
    (oracle : Except E (List Char)) : List Char :=
  let full_text := extractFullText pages
  if stripStr full_text = [] then sentinelNotFound
  else
    match oracle with
    | Except.error _ => sentinelNotFound
    | Except.ok respText => cleanLLMResponse respText

/-- Parsed JSON values, the shape produced by json.loads in
src/main_2.py line 189. -/
inductive Json where
  | null : Json
  | bool (b : Bool) : Json
  | num (n : Int) : Json
  | str (s : List Char) : Json
  | arr (elems : List Json) : Json
  | obj (members : List (List Char × Json)) : Json

/-- Whether a JSON value is a string: only strings survive the
strip()/upper() normalization of src/main_2.py lines 192-193; any other
value raises there. -/
def jsonIsStr : Json → Bool
  | Json.str _ => true
  | _ => false

/-- Python dict lookup for an object built by json.loads: with duplicate
keys the later member wins. -/
def lookupMember : List (List Char × Json) → List Char → Option Json
  | [], _ => none
  | (k, v) :: rest, key =>
    match lookupMember rest key with
    | some v2 => some v2
    | none => if k = key then some v else none

/-- details.get(key, 'NOT_FOUND').strip().upper() of src/main_2.py lines
192-193, as a fallible step: an absent key yields NOT_FOUND, a string
value is stripped and uppercased, and any non-string value raises
(none), which the surrounding try maps to the absence signal. -/
def coerceField : Option Json → Option (List Char)
  | none => some ("NOT_FOUND".toList)
  | some (Json.str s) => some (upperStr (stripStr s))
  | some _ => none

/-- The result record of the structured extractor: the two fields read
back by the orchestrator in src/main_2.py lines 228-229. -/
structure ShippingDetails where
  BL_Number : List Char
  Container_Number : List Char
deriving DecidableEq

/-- The field-normalization block of src/main_2.py lines 189-195 applied
to the parsed JSON value: a non-object value raises at the .get call,
and either field's coercion failing aborts the whole result. -/
def normalizeDetails : Json → Option ShippingDetails
  | Json.obj members =>
    match coerceField (lookupMember members ("BL_Number".toList)),
        coerceField (lookupMember members ("Container_Number".toList)) with
    | some bl, some cn => some (ShippingDetails.mk bl cn)
    | _, _ => none
  | _ => none

/-- The JSON-isolation regex search of src/main_2.py line 179
(re.search of an open brace, then any characters with DOTALL, then a
close brace): the leftmost match starts at the first open brace and the
greedy body extends to the last close brace, so a match exists exactly
when some close brace follows the first open brace, and the matched span
runs from the first open brace to the last close brace. -/
def jsonSpan (s : List Char) : Option (List Char) :=
  match List.findIdx? (fun c => c = '{') s with
  | none => none
  | some i =>
    match List.findIdx? (fun c => c = '}') s.reverse with
    | none => none
    | some k =>
      if i < s.length - 1 - k then
        some ((s.drop i).take (s.length - 1 - k - i + 1))
      else none

/-- The response-handling tail of extract_shipping_details_llm_tool
(src/main_2.py lines 175-200): strip the raw response, isolate the
brace-delimited span, parse it with json.loads (modelled as the parse
argument, none meaning the library raised), and normalize the two
fields; every failure path degrades to none. -/
def extract_shipping_details_response (parse : List Char → Option Json)
    (respText : List Char) : Option ShippingDetails :=
  let llm_output := stripStr respText
  match jsonSpan llm_output with
  | none => none
  | some clean_json_string =>
    match parse clean_json_string with
    | none => none
    | some details => normalizeDetails details

/-- extract_shipping_details_llm_tool of src/main_2.py lines 135-200,
with the PDF as per-page texts and the model call as an oracle outcome
(any exception inside the try block is caught at line 197). -/
def extract_shipping_details_llm_tool {E : Type}
    (parse : List Char → Option Json) (pages : List (List Char))
    (oracle : Except E (List Char)) : Option ShippingDetails :=
  let full_text := extractFullText pages
  if stripStr full_text = [] then none
  else
    match oracle with
    | Except.error _ => none
    | Except.ok respText => extract_shipping_details_response parse respText

/-- One cell update issued to the Sheets collaborator: update_sheet_cell
of src/main_2.py lines 111-130 targets A1 coordinate
(column letter, row_index + 1) with the BL number as value. -/
structure SheetUpdate where
  colLetter : List Char
  rowOneBased : Nat
  value : List Char
deriving DecidableEq

/-- update_sheet_cell of src/main_2.py: the coordinate and value of the
single update it issues. -/
def update_sheet_cell (row_index : Nat) (bl_number : List Char)
    (bl_column_letter : List Char) : SheetUpdate :=
  SheetUpdate.mk bl_column_letter (row_index + 1) bl_number

/-- The row-scan loop of src/main_2.py lines 249-256, returning the list
of updates issued: the first row with index above 0, more than 3 cells,
and the container number a substring of cell 3 receives one update in
column E and the scan breaks; otherwise no update is issued. -/
def sheetLookupLoop : List (List (List Char)) → Nat → List Char
    → List Char → List SheetUpdate
  | [], _, _, _ => []
  | row :: rest, i, container_number, latest_bl_number =>
    if 0 < i ∧ 3 < row.length
        ∧ containsSub (row.getD 3 []) container_number = true then
      [update_sheet_cell i latest_bl_number ("E".toList)]
    else sheetLookupLoop rest (i + 1) container_number latest_bl_number

/-- The sheet-reconciliation step of main in src/main_2.py lines
243-258: the scan runs only when the container number is truthy and
does not contain NOT_FOUND. -/
def sheetsStep (sheet_data : List (List (List Char)))
    (container_number latest_bl_number : List Char) : List SheetUpdate :=
  if container_number ≠ []
      ∧ containsSub container_number ("NOT_FOUND".toList) = false then
    sheetLookupLoop sheet_data 0 container_number latest_bl_number
  else []

/-- Whether a keyword fails to select an identifier at a given text:
either its uppercase form does not occur, or the alphanumeric block
after its first occurrence is empty. -/
def anchorYieldsEmpty (full_text full_text_upper kw : List Char) : Bool :=
  match firstIdx full_text_upper (upperStr kw) with
  | none => true
  | some i =>
    (getAlphanumericBlock full_text (i + (upperStr kw).length)).isEmpty

/-- The model-response sanitizer as the specification words it (spec.md
section 4.3): uppercase and trim the raw response; map either sentinel
spelling to the sentinel; otherwise take the first run of 8 or more
consecutive uppercase letters/digits, or fall back to the whole cleaned
response, with a BL- prefix. -/
def sanitizeSpec (raw : List Char) : List Char :=
  let cleaned := stripStr (upperStr raw)
  if cleaned = "BL_NUMBER_NOT_FOUND".toList
      ∨ cleaned = "BL NUMBER NOT FOUND".toList then
    sentinelNotFound
  else
    match firstRun8 cleaned with
    | some run => "BL-".toList ++ run
    | none => "BL-".toList ++ cleaned

/-- The sheet row scan as the claim words it: the index of the first row
after the header (index 0) whose cell of index 3 exists and contains the
container identifier as a substring. -/
def sheetFirstMatch (container : List Char)
    (rows : List (List (List Char))) : Option Nat :=
  (rows.enum.find? (fun p =>
    decide (0 < p.fst) && decide (3 < p.snd.length)
      && containsSub (p.snd.getD 3 []) container)).map Prod.fst

/-- Char.ofNat round-trips through toNat on the small codepoints the
pipeline manipulates. -/
theorem toNat_ofNat_small (n : Nat) (h : n < 1000) : (Char.ofNat n).toNat = n := by
  have hv : n.isValidChar := Or.inl (by omega)
  simp [Char.ofNat, hv, Char.ofNatAux, Char.toNat, UInt32.toNat]

/-- The codepoint of an uppercased character. -/
theorem toNat_upperChar (c : Char) :
    (upperChar c).toNat =
      if 97 ≤ c.toNat ∧ c.toNat ≤ 122 then c.toNat - 32 else c.toNat := by
  by_cases h : 97 ≤ c.toNat ∧ c.toNat ≤ 122
  · rw [upperChar, if_pos h, if_pos h, toNat_ofNat_small _ (by omega)]
  · rw [upperChar, if_neg h, if_neg h]

/-- Uppercasing twice is uppercasing once. -/
theorem upperChar_idem (c : Char) : upperChar (upperChar c) = upperChar c := by
  rw [upperChar]
  rw [toNat_upperChar]
  by_cases h : 97 ≤ c.toNat ∧ c.toNat ≤ 122
  · rw [if_pos h, if_neg (by omega)]
  · rw [if_neg h, if_neg h]

/-- Uppercasing preserves whitespace-ness. -/
theorem pyWs_upperChar (c : Char) : pyWs (upperChar c) = pyWs c := by
  rw [Bool.eq_iff_iff]
  simp only [pyWs, toNat_upperChar, Bool.or_eq_true, decide_eq_true_eq]
  by_cases h : 97 ≤ c.toNat ∧ c.toNat ≤ 122
  · rw [if_pos h]; omega
  · rw [if_neg h]

/-- Uppercasing a letter or digit yields an uppercase letter or digit. -/
theorem upperAlnum_upperChar_of_valid (c : Char) (h : validChar c = true) :
    upperAlnum (upperChar c) = true := by
  simp only [validChar, Bool.or_eq_true, Bool.and_eq_true, decide_eq_true_eq] at h
  simp only [upperAlnum, toNat_upperChar, Bool.or_eq_true, Bool.and_eq_true,
    decide_eq_true_eq]
  by_cases hc : 97 ≤ c.toNat ∧ c.toNat ≤ 122
  · rw [if_pos hc]; omega
  · rw [if_neg hc]; omega

/-- Uppercase letters and digits are fixed by uppercasing. -/
theorem upperChar_fix_of_upperAlnum (c : Char) (h : upperAlnum c = true) :
    upperChar c = c := by
  simp only [upperAlnum, Bool.or_eq_true, Bool.and_eq_true, decide_eq_true_eq] at h
  rw [upperChar, if_neg (by omega)]

/-- Uppercasing a whole string twice is uppercasing it once. -/
theorem upperStr_idem (s : List Char) : upperStr (upperStr s) = upperStr s := by
  simp only [upperStr, List.map_map]
  exact List.map_congr_left (fun c _ => upperChar_idem c)

/-- A string of uppercase letters and digits is fixed by uppercasing. -/
theorem upperStr_fix_of_upperAlnum (s : List Char)
    (h : ∀ c ∈ s, upperAlnum c = true) : upperStr s = s := by
  induction s with
  | nil => rfl
  | cons c rest ih =>
    simp only [upperStr, List.map_cons]
    rw [upperChar_fix_of_upperAlnum c (h c (by simp))]
    have := ih (fun d hd => h d (by simp [hd]))
    simp only [upperStr] at this
    rw [this]

/-- Stripping commutes with uppercasing. -/
theorem stripStr_upperStr (s : List Char) :
    stripStr (upperStr s) = upperStr (stripStr s) := by
  have hdw : ∀ t : List Char,
      List.dropWhile pyWs (upperStr t) = upperStr (List.dropWhile pyWs t) := by
    intro t
    rw [upperStr, List.dropWhile_map]
    have : (pyWs ∘ upperChar) = pyWs := funext (fun c => pyWs_upperChar c)
    rw [this, upperStr]
  rw [stripStr, stripStr, hdw, upperStr, ← List.map_reverse, ← upperStr, hdw,
    upperStr, ← List.map_reverse, ← upperStr]

/-- Once the accumulator is nonempty, the block loop appends exactly the
maximal alphanumeric run at the front of the remaining text. -/
theorem gabLoop_of_ne_nil (s : List Char) :
    ∀ acc : List Char, acc ≠ [] →
      getAlphanumericBlockLoop s acc = acc ++ List.takeWhile validChar s := by
  induction s with
  | nil => intro acc _; simp [getAlphanumericBlockLoop]
  | cons c rest ih =>
    intro acc hacc
    by_cases hv : validChar c
    · rw [getAlphanumericBlockLoop, if_pos hv, ih (acc ++ [c]) (by simp),
        List.takeWhile_cons_of_pos hv]
      simp
    · rw [getAlphanumericBlockLoop, if_neg hv, if_pos hacc,
        List.takeWhile_cons_of_neg hv, List.append_nil]

/-- get_alphanumeric_block skips the non-alphanumeric characters after
the start index and returns the first maximal alphanumeric run. -/
theorem getAlphanumericBlock_eq (text : List Char) (i : Nat) :
    getAlphanumericBlock text i =
      List.takeWhile validChar
        (List.dropWhile (fun c => !validChar c) (text.drop i)) := by
  rw [getAlphanumericBlock]
  generalize text.drop i = s
  induction s with
  | nil => rfl
  | cons c rest ih =>
    by_cases hv : validChar c
    · rw [getAlphanumericBlockLoop, if_pos hv, List.nil_append,
        gabLoop_of_ne_nil rest [c] (by simp),
        List.dropWhile_cons_of_neg (by simp [hv]),
        List.takeWhile_cons_of_pos hv]
      rfl
    · rw [getAlphanumericBlockLoop, if_neg hv, if_neg (by simp), ih,
        List.dropWhile_cons_of_pos (by simp [hv])]

/-- The block returned by get_alphanumeric_block consists of letters and
digits only. -/
theorem getAlphanumericBlock_valid (text : List Char) (i : Nat) :
    ∀ c ∈ getAlphanumericBlock text i, validChar c = true := by
  intro c hc
  rw [getAlphanumericBlock_eq] at hc
  exact List.mem_takeWhile_imp hc

/-- Keywords whose uppercase form does not occur in the text are skipped
by the keyword loop. -/
theorem keywordSearch_append (t tU : List Char) (pre : List (List Char))
    (rest : List (List Char))
    (hpre : ∀ k ∈ pre, firstIdx tU (upperStr k) = none) :
    keywordSearch (pre ++ rest) t tU = keywordSearch rest t tU := by
  induction pre with
  | nil => rfl
  | cons k0 pre ih =>
    rw [List.cons_append, keywordSearch, hpre k0 (by simp)]
    exact ih (fun k hk => hpre k (by simp [hk]))

/-- When every keyword of the list fails, the keyword loop returns the
sentinel. -/
theorem keywordSearch_sentinel (L : List (List Char)) (t tU : List Char)
    (h : ∀ kw ∈ L, anchorYieldsEmpty t tU kw = true) :
    keywordSearch L t tU = sentinelNotFound := by
  induction L with
  | nil => rfl
  | cons kw rest ih =>
    have hkw := h kw (by simp)
    rw [anchorYieldsEmpty] at hkw
    rw [keywordSearch]
    cases hidx : firstIdx tU (upperStr kw) with
    | none => exact ih (fun k hk => h k (by simp [hk]))
    | some i =>
      rw [hidx] at hkw
      simp only [List.isEmpty_iff] at hkw
      simp only [upperStr] at hkw ⊢
      rw [hkw, List.map_nil, if_pos rfl]
      exact ih (fun k hk => h k (by simp [hk]))

/-- Every return value of the keyword loop is the sentinel or BL-
followed by the uppercased form of a nonempty alphanumeric block. -/
theorem keywordSearch_shape (L : List (List Char)) (t tU : List Char) :
    keywordSearch L t tU = sentinelNotFound
      ∨ ∃ b : List Char, b ≠ [] ∧ (∀ c ∈ b, validChar c = true)
          ∧ keywordSearch L t tU = "BL-".toList ++ upperStr b := by
  induction L with
  | nil => exact Or.inl rfl
  | cons kw rest ih =>
    rw [keywordSearch]
    cases hidx : firstIdx tU (upperStr kw) with
    | none => exact ih
    | some i =>
      by_cases hb : upperStr (getAlphanumericBlock t (i + (upperStr kw).length)) = []
      · simp only [hb, if_pos rfl]
        exact ih
      · simp only [hb, if_neg hb]
        refine Or.inr ⟨getAlphanumericBlock t (i + (upperStr kw).length), ?_,
          getAlphanumericBlock_valid t _, rfl⟩
        intro hnil
        exact hb (by rw [hnil]; rfl)

/-- Membership transfers along a verified list-prefix check. -/
theorem mem_of_isPrefixOf :
    ∀ {l1 l2 : List Char}, l1.isPrefixOf l2 = true → ∀ c ∈ l1, c ∈ l2 := by
  intro l1
  induction l1 with
  | nil => intro l2 _ c hc; cases hc
  | cons a as ih =>
    intro l2 h c hc
    cases l2 with
    | nil => simp [List.isPrefixOf] at h
    | cons b bs =>
      simp only [List.isPrefixOf, Bool.and_eq_true, beq_iff_eq] at h
      rcases List.mem_cons.mp hc with hca | hcas
      · exact List.mem_cons.mpr (Or.inl (hca.trans h.1))
      · exact List.mem_cons.mpr (Or.inr (ih h.2 c hcas))

/-- A pattern with a non-whitespace character never occurs in an
all-whitespace text. -/
theorem firstIdx_none_of_ws (hay : List Char) (pat : List Char)
    (hws : ∀ c ∈ hay, pyWs c = true)
    (hpat : ∃ c ∈ pat, pyWs c = false) : firstIdx hay pat = none := by
  induction hay with
  | nil =>
    obtain ⟨c, hc, _⟩ := hpat
    cases pat with
    | nil => cases hc
    | cons p ps => simp [firstIdx, List.isPrefixOf]
  | cons a rest ih =>
    have hnp : pat.isPrefixOf (a :: rest) = false := by
      cases hp : pat.isPrefixOf (a :: rest) with
      | false => rfl
      | true =>
        obtain ⟨c, hc, hcf⟩ := hpat
        have := hws c (mem_of_isPrefixOf hp c hc)
        rw [this] at hcf
        cases hcf
    rw [firstIdx, hnp]
    simp only [Bool.false_eq_true, if_false]
    rw [ih (fun c hc => hws c (List.mem_cons.mpr (Or.inr hc)))]
    rfl

/-- Stripping an all-whitespace string yields the empty string. -/
theorem stripStr_eq_nil_of_ws (s : List Char)
    (h : ∀ c ∈ s, pyWs c = true) : stripStr s = [] := by
  rw [stripStr, List.dropWhile_eq_nil_iff.mpr h]
  rfl

/-- The page loop of the text extractors appends the normalized pages to
the accumulator. -/
theorem extractFullTextLoop_eq (ps : List (List Char)) :
    ∀ acc : List Char,
      extractFullTextLoop ps acc = acc ++ List.flatten (ps.map normalizePage) := by
  induction ps with
  | nil => intro acc; simp [extractFullTextLoop]
  | cons p ps ih =>
    intro acc
    rw [extractFullTextLoop, ih, List.map_cons, List.flatten_cons,
      List.append_assoc]

/-- A run found by the cleanup regex consists of uppercase letters and
digits only. -/
theorem firstRun8_chars (s : List Char) (r : List Char)
    (h : firstRun8 s = some r) : ∀ c ∈ r, upperAlnum c = true := by
  induction s with
  | nil => cases h
  | cons c rest ih =>
    rw [firstRun8] at h
    by_cases h8 : 8 ≤ (List.takeWhile upperAlnum (c :: rest)).length
    · rw [if_pos h8] at h
      intro d hd
      rw [← Option.some_inj.mp h] at hd
      exact List.mem_takeWhile_imp hd
    · rw [if_neg h8] at h
      exact ih h

/-- C1: for text in which the first matching anchor keyword (earlier
keywords in the configured order do not occur) is found at index i and
is followed by a nonempty alphanumeric block, the Pattern-Based Finder
returns BL- followed by that block uppercased; the block is obtained by
skipping non-alphanumeric characters after the anchor and accumulating
the first contiguous run of letters/digits, stopping at the first
non-alphanumeric character, and the returned run has exactly the length
of the alphanumeric run in the text. -/
theorem C1_pattern_finder_first_anchor (t : List Char)
    (pre post : List (List Char)) (kw : List Char) (i : Nat)
    (hkeys : keywords = pre ++ kw :: post)
    (hpre : ∀ k ∈ pre, firstIdx (upperStr t) (upperStr k) = none)
    (hfind : firstIdx (upperStr t) (upperStr kw) = some i)
    (hne : getAlphanumericBlock t (i + (upperStr kw).length) ≠ []) :
    extract_bl_number_text t
        = "BL-".toList
          ++ upperStr (getAlphanumericBlock t (i + (upperStr kw).length))
      ∧ getAlphanumericBlock t (i + (upperStr kw).length)
          = List.takeWhile validChar
              (List.dropWhile (fun c => !validChar c)
                (t.drop (i + (upperStr kw).length)))
      ∧ (upperStr (getAlphanumericBlock t (i + (upperStr kw).length))).length
          = (getAlphanumericBlock t (i + (upperStr kw).length)).length := by
  refine ⟨?_, getAlphanumericBlock_eq t _, List.length_map _ _⟩
  rw [extract_bl_number_text, hkeys,
    keywordSearch_append t (upperStr t) pre _ hpre]
  simp only [keywordSearch, hfind]
  rw [if_neg (fun h => hne (by simpa [upperStr] using h))]

/-- C1 witness: on the text of end-to-end scenario A the first keyword
matches at index 0 with nonempty block ABN123456, and the finder returns
BL-ABN123456. -/
theorem C1_pattern_finder_first_anchor_witness :
    extract_bl_number_text ("B/L: ABN123456 CONTAINER".toList)
      = "BL-ABN123456".toList := by
  have h := C1_pattern_finder_first_anchor
    ("B/L: ABN123456 CONTAINER".toList) []
    ["BL:".toList, "B/L No.".toList, "Bill of Lading Number:".toList,
     "Shipment No.".toList]
    ("B/L:".toList) 0 rfl
    (fun k hk => absurd hk (List.not_mem_nil k))
    (by decide) (by decide)
  rw [h.1]
  decide

/-- C5 counterexample: in the text Shipment No. BL: the anchor BL: is
found (at index 13) and its accumulated alphanumeric run is empty, yet
the finder does not return the sentinel: a later anchor supplies BL-BL. -/
theorem C5_counterexample :
    ("BL:".toList ∈ keywords)
      ∧ firstIdx (upperStr ("Shipment No. BL:".toList))
          (upperStr ("BL:".toList)) = some 13
      ∧ getAlphanumericBlock ("Shipment No. BL:".toList) (13 + 3) = []
      ∧ extract_bl_number_text ("Shipment No. BL:".toList) = "BL-BL".toList
      ∧ extract_bl_number_text ("Shipment No. BL:".toList)
          ≠ sentinelNotFound := by
  exact ⟨by decide, by decide, by decide, by decide, by decide⟩

/-- C5 amended: the finder returns the sentinel for every text in which
every configured anchor fails, that is, each anchor either does not
occur (case-insensitively) or has an empty accumulated alphanumeric run
after its first occurrence.  (The original claim returned the sentinel
as soon as some matching anchor had an empty run; the counterexample
shows the loop instead falls through to later anchors.) -/
theorem C5_amended_sentinel (t : List Char)
    (h : ∀ kw ∈ keywords, anchorYieldsEmpty t (upperStr t) kw = true) :
    extract_bl_number_text t = sentinelNotFound :=
  keywordSearch_sentinel keywords t (upperStr t) h

/-- C5 amended witness: on the text BL: every anchor fails (the one
matching anchor is followed by nothing) and the sentinel is returned. -/
theorem C5_amended_sentinel_witness :
    (∀ kw ∈ keywords,
        anchorYieldsEmpty ("BL:".toList) (upperStr ("BL:".toList)) kw = true)
      ∧ extract_bl_number_text ("BL:".toList) = sentinelNotFound :=
  ⟨by decide, C5_amended_sentinel ("BL:".toList) (by decide)⟩

/-- C9: the Text Extractor is the concatenation over pages of the
per-page normalization that replaces newline and carriage return by a
space and then collapses double spaces in one non-recursive pass; a run
of four spaces therefore still leaves a double space in the output. -/
theorem C9_text_normalization (pages : List (List Char)) :
    extractFullText pages
        = List.flatten (pages.map (fun p =>
            replaceDoubleSpace (replaceChar '\r' ' ' (replaceChar '\n' ' ' p))))
      ∧ replaceDoubleSpace [' ', ' ', ' ', ' '] = [' ', ' ']
      ∧ extractFullText [['a', ' ', ' ', ' ', ' ', 'b']] = ['a', ' ', ' ', 'b'] := by
  refine ⟨?_, by decide, by decide⟩
  rw [extractFullText, extractFullTextLoop_eq, List.nil_append]
  rfl

/-- C2: the model-response sanitizer of the single-field extractor
implements the specified cleaning (uppercase and trim; sentinel in
underscored or spaced form maps to the sentinel; otherwise BL- plus the
first run of 8 or more uppercase letters/digits, or BL- plus the whole
cleaned response); in particular ABC12345678 yields BL-ABC12345678 and
the exact sentinel input is returned un-prefixed. -/
theorem C2_sanitizer_spec (raw : List Char) :
    cleanLLMResponse raw = sanitizeSpec raw
      ∧ cleanLLMResponse ("ABC12345678".toList) = "BL-ABC12345678".toList
      ∧ cleanLLMResponse ("BL_Number_Not_Found".toList)
          = "BL_Number_Not_Found".toList := by
  refine ⟨?_, by decide, by decide⟩
  rw [cleanLLMResponse, sanitizeSpec, stripStr_upperStr]

/-- C4: for every PDF input, a model call that fails with any exception
is caught and mapped to the sentinel by the single-field extractor and
to the absence signal by the structured extractor; in the embedding both
stages are total functions of the oracle outcome. -/
theorem C4_model_failure_totality {E : Type} (err : E)
    (pages : List (List Char)) (parse : List Char → Option Json) :
    extract_bl_number_llm_tool pages (Except.error err) = sentinelNotFound
      ∧ extract_shipping_details_llm_tool parse pages (Except.error err)
          = none := by
  constructor
  · simp only [extract_bl_number_llm_tool]
    by_cases hb : stripStr (extractFullText pages) = []
    · rw [if_pos hb]
    · rw [if_neg hb]
  · simp only [extract_shipping_details_llm_tool]
    by_cases hb : stripStr (extractFullText pages) = []
    · rw [if_pos hb]
    · rw [if_neg hb]

/-- Every sanitizer output is the sentinel or BL- followed by a payload
that uppercasing fixes. -/
theorem cleanLLMResponse_shape (raw : List Char) :
    cleanLLMResponse raw = sentinelNotFound
      ∨ ∃ p : List Char, upperStr p = p
          ∧ cleanLLMResponse raw = "BL-".toList ++ p := by
  simp only [cleanLLMResponse]
  by_cases hs : upperStr (stripStr raw) = "BL_NUMBER_NOT_FOUND".toList
      ∨ upperStr (stripStr raw) = "BL NUMBER NOT FOUND".toList
  · rw [if_pos hs]
    exact Or.inl rfl
  · rw [if_neg hs]
    cases hr : firstRun8 (upperStr (stripStr raw)) with
    | some run =>
      exact Or.inr ⟨run,
        upperStr_fix_of_upperAlnum run (firstRun8_chars _ run hr), rfl⟩
    | none =>
      exact Or.inr ⟨upperStr (stripStr raw), upperStr_idem _, rfl⟩

/-- C6 counterexample: with nonblank text and an empty model response,
the single-field extractor returns the bare prefix BL-, which is neither
a sentinel nor BL- followed by a nonempty payload, refuting the claimed
invariant for the model path. -/
theorem C6_counterexample :
    extract_bl_number_llm_tool [['X']]
        (Except.ok ([] : List Char) : Except Unit (List Char))
        = "BL-".toList
      ∧ extract_bl_number_llm_tool [['X']]
          (Except.ok ([] : List Char) : Except Unit (List Char))
          ≠ sentinelNotFound
      ∧ ¬ ∃ p : List Char, p ≠ []
          ∧ extract_bl_number_llm_tool [['X']]
              (Except.ok ([] : List Char) : Except Unit (List Char))
              = "BL-".toList ++ p := by
  refine ⟨by decide, by decide, ?_⟩
  rintro ⟨p, hp, he⟩
  have h1 : ("BL-".toList : List Char) = "BL-".toList ++ p := by
    rw [← he]; decide
  have h2 : ("BL-".toList : List Char).length = ("BL-".toList ++ p).length := by
    rw [← h1]
  rw [List.length_append] at h2
  exact hp (List.length_eq_zero.mp (by omega))

/-- C6 amended: every string returned by the pattern-based finder is the
sentinel or BL- followed by a nonempty uppercase alphanumeric payload;
every string returned by the single-field model extractor is the
sentinel or BL- followed by a payload fixed by uppercasing, which in the
fallback branch (no run of 8 or more uppercase letters/digits in the
cleaned response) may be empty or contain non-alphanumeric characters. -/
theorem C6_amended_identifier_shape (t : List Char) {E : Type}
    (pages : List (List Char)) (oracle : Except E (List Char)) :
    (extract_bl_number_text t = sentinelNotFound
        ∨ ∃ p : List Char, p ≠ [] ∧ (∀ c ∈ p, upperAlnum c = true)
            ∧ extract_bl_number_text t = "BL-".toList ++ p)
      ∧ (extract_bl_number_llm_tool pages oracle = sentinelNotFound
        ∨ ∃ p : List Char, upperStr p = p
            ∧ extract_bl_number_llm_tool pages oracle = "BL-".toList ++ p) := by
  constructor
  · rcases keywordSearch_shape keywords t (upperStr t) with h | ⟨b, hb, hv, he⟩
    · exact Or.inl h
    · refine Or.inr ⟨upperStr b, ?_, ?_, he⟩
      · intro hnil
        exact hb (by simpa [upperStr] using hnil)
      · intro c hc
        rw [upperStr] at hc
        obtain ⟨d, hd, rfl⟩ := List.mem_map.mp hc
        exact upperAlnum_upperChar_of_valid d (hv d hd)
  · simp only [extract_bl_number_llm_tool]
    by_cases hb : stripStr (extractFullText pages) = []
    · rw [if_pos hb]
      exact Or.inl rfl
    · rw [if_neg hb]
      cases oracle with
      | error e => exact Or.inl rfl
      | ok resp => exact cleanLLMResponse_shape resp

/-- C7: when the extracted, normalized text is empty or whitespace-only,
the Pattern-Based Finder returns the sentinel, the single-field model
extractor returns the sentinel for every model oracle outcome, and the
structured extractor returns the absence signal for every parse function
and oracle outcome; the model is never consulted since the result is
oracle-independent. -/
theorem C7_blank_short_circuit (pages : List (List Char))
    (hws : ∀ c ∈ extractFullText pages, pyWs c = true) :
    extract_bl_number_from_pdf pages = sentinelNotFound
      ∧ (∀ (E : Type) (oracle : Except E (List Char)),
          extract_bl_number_llm_tool pages oracle = sentinelNotFound)
      ∧ (∀ (E : Type) (parse : List Char → Option Json)
          (oracle : Except E (List Char)),
          extract_shipping_details_llm_tool parse pages oracle = none) := by
  have hstrip : stripStr (extractFullText pages) = [] :=
    stripStr_eq_nil_of_ws _ hws
  refine ⟨?_, ?_, ?_⟩
  · rw [extract_bl_number_from_pdf, extract_bl_number_text]
    apply keywordSearch_sentinel
    intro kw hkw
    have hchar : ∀ k ∈ keywords, ∃ c ∈ upperStr k, pyWs c = false := by decide
    have hnone : firstIdx (upperStr (extractFullText pages)) (upperStr kw)
        = none := by
      apply firstIdx_none_of_ws
      · intro c hc
        rw [upperStr] at hc
        obtain ⟨d, hd, rfl⟩ := List.mem_map.mp hc
        rw [pyWs_upperChar]
        exact hws d hd
      · exact hchar kw hkw
    rw [anchorYieldsEmpty, hnone]
  · intro E oracle
    simp only [extract_bl_number_llm_tool]
    rw [if_pos hstrip]
  · intro E parse oracle
    simp only [extract_shipping_details_llm_tool]
    rw [if_pos hstrip]

/-- C7 witness: a one-page PDF whose text is a single space takes the
blank-text branch in all three extractors. -/
theorem C7_blank_short_circuit_witness :
    (∀ c ∈ extractFullText [[' ']], pyWs c = true)
      ∧ extract_bl_number_from_pdf [[' ']] = sentinelNotFound
      ∧ extract_bl_number_llm_tool [[' ']]
          (Except.ok ("HELLO".toList) : Except Unit (List Char))
          = sentinelNotFound
      ∧ extract_shipping_details_llm_tool (fun _ => none) [[' ']]
          (Except.error () : Except Unit (List Char)) = none := by
  have h := C7_blank_short_circuit [[' ']] (by decide)
  exact ⟨by decide, h.1, h.2.1 Unit (Except.ok ("HELLO".toList)),
    h.2.2 Unit (fun _ => none) (Except.error ())⟩

/-- Any value surviving the field coercion is fixed by uppercasing. -/
theorem coerceField_upper_fixed (o : Option Json) (v : List Char)
    (h : coerceField o = some v) : upperStr v = v := by
  cases o with
  | none =>
    rw [coerceField] at h
    rw [← Option.some_inj.mp h]
    decide
  | some j =>
    cases j with
    | str s =>
      rw [coerceField] at h
      rw [← Option.some_inj.mp h, upperStr_idem]
    | null => cases h
    | bool b => cases h
    | num n => cases h
    | arr elems => cases h
    | obj members => cases h

/-- Normalized details have both fields fixed by uppercasing. -/
theorem normalizeDetails_upper_fixed (j : Json) (d : ShippingDetails)
    (h : normalizeDetails j = some d) :
    upperStr d.BL_Number = d.BL_Number
      ∧ upperStr d.Container_Number = d.Container_Number := by
  cases j with
  | obj members =>
    rw [normalizeDetails] at h
    cases hbl : coerceField (lookupMember members ("BL_Number".toList)) with
    | none => rw [hbl] at h; cases h
    | some bl =>
      cases hcn : coerceField (lookupMember members ("Container_Number".toList)) with
      | none => rw [hbl, hcn] at h; cases h
      | some cn =>
        rw [hbl, hcn] at h
        rw [← Option.some_inj.mp h]
        exact ⟨coerceField_upper_fixed _ bl hbl, coerceField_upper_fixed _ cn hcn⟩
  | null => cases h
  | bool b => cases h
  | num n => cases h
  | str s => cases h
  | arr elems => cases h

/-- A non-string JSON value does not survive the field coercion. -/
theorem coerceField_none_of_not_str (v : Json) (h : jsonIsStr v = false) :
    coerceField (some v) = none := by
  cases v with
  | str s => rw [jsonIsStr] at h; cases h
  | null => rfl
  | bool b => rfl
  | num n => rfl
  | arr elems => rfl
  | obj members => rfl

/-- C3: the structured extractor isolates the span from the first open
brace to the last close brace of the stripped response; it returns the
absence signal when no such span exists or when the isolated span fails
to parse as JSON; on success both fields are present and uppercase; an
absent key is substituted by NOT_FOUND and a present string value is
trimmed and uppercased. -/
theorem C3_structured_response (parse : List Char → Option Json)
    (resp : List Char) :
    (jsonSpan (stripStr resp) = none
        → extract_shipping_details_response parse resp = none)
      ∧ (∀ sp, jsonSpan (stripStr resp) = some sp → parse sp = none
        → extract_shipping_details_response parse resp = none)
      ∧ (∀ d, extract_shipping_details_response parse resp = some d
        → upperStr d.BL_Number = d.BL_Number
          ∧ upperStr d.Container_Number = d.Container_Number)
      ∧ (∀ sp members, jsonSpan (stripStr resp) = some sp
        → parse sp = some (Json.obj members)
        → lookupMember members ("BL_Number".toList) = none
        → extract_shipping_details_response parse resp = none
          ∨ ∃ d, extract_shipping_details_response parse resp = some d
              ∧ d.BL_Number = "NOT_FOUND".toList)
      ∧ (∀ sp members s, jsonSpan (stripStr resp) = some sp
        → parse sp = some (Json.obj members)
        → lookupMember members ("BL_Number".toList) = some (Json.str s)
        → extract_shipping_details_response parse resp = none
          ∨ ∃ d, extract_shipping_details_response parse resp = some d
              ∧ d.BL_Number = upperStr (stripStr s)) := by
  refine ⟨?_, ?_, ?_, ?_, ?_⟩
  · intro hno
    simp only [extract_shipping_details_response, hno]
  · intro sp hsp hparse
    simp only [extract_shipping_details_response, hsp, hparse]
  · intro d hd
    simp only [extract_shipping_details_response] at hd
    cases hsp : jsonSpan (stripStr resp) with
    | none =>
      simp only [hsp] at hd
      exact Option.noConfusion hd
    | some sp =>
      simp only [hsp] at hd
      cases hparse : parse sp with
      | none =>
        simp only [hparse] at hd
        exact Option.noConfusion hd
      | some j =>
        simp only [hparse] at hd
        exact normalizeDetails_upper_fixed j d hd
  · intro sp members hsp hparse hbl
    simp only [extract_shipping_details_response, hsp, hparse,
      normalizeDetails, hbl]
    cases hcn : coerceField (lookupMember members ("Container_Number".toList)) with
    | none => exact Or.inl rfl
    | some cn =>
      exact Or.inr ⟨ShippingDetails.mk ("NOT_FOUND".toList) cn, rfl, rfl⟩
  · intro sp members s hsp hparse hbl
    simp only [extract_shipping_details_response, hsp, hparse,
      normalizeDetails, hbl]
    cases hcn : coerceField (lookupMember members ("Container_Number".toList)) with
    | none => exact Or.inl rfl
    | some cn =>
      exact Or.inr ⟨ShippingDetails.mk (upperStr (stripStr s)) cn, rfl, rfl⟩

/-- C3 witness: on a response with prose around a brace-delimited span
and a parse yielding string fields abc123 and NOT_FOUND, the extractor
succeeds and both returned fields are fixed by uppercasing. -/
theorem C3_structured_response_witness :
    upperStr ("ABC123".toList) = "ABC123".toList
      ∧ upperStr ("NOT_FOUND".toList) = "NOT_FOUND".toList := by
  have h := (C3_structured_response
    (fun _ => some (Json.obj
      [("BL_Number".toList, Json.str ("abc123".toList)),
       ("Container_Number".toList, Json.str ("NOT_FOUND".toList))]))
    ("ok {x} done".toList)).2.2.1
    (ShippingDetails.mk ("ABC123".toList) ("NOT_FOUND".toList)) (by decide)
  exact h

/-- C10: when the isolated span parses to a JSON object binding
BL_Number or Container_Number to a non-string value, the normalization
raises inside the guarded block and the structured extractor returns the
absence signal for the whole attachment; no partial result is returned. -/
theorem C10_nonstring_field_aborts (parse : List Char → Option Json)
    (resp sp : List Char) (members : List (List Char × Json)) (v : Json)
    (hspan : jsonSpan (stripStr resp) = some sp)
    (hparse : parse sp = some (Json.obj members))
    (hv : (lookupMember members ("BL_Number".toList) = some v
            ∧ jsonIsStr v = false)
        ∨ (lookupMember members ("Container_Number".toList) = some v
            ∧ jsonIsStr v = false)) :
    extract_shipping_details_response parse resp = none := by
  simp only [extract_shipping_details_response, hspan, hparse,
    normalizeDetails]
  rcases hv with ⟨hl, hs⟩ | ⟨hl, hs⟩
  · rw [hl, coerceField_none_of_not_str v hs]
  · rw [hl, coerceField_none_of_not_str v hs]
    cases coerceField (lookupMember members ("BL_Number".toList)) with
    | none => rfl
    | some bl => rfl

/-- C10 witness: a response whose span parses to an object binding
BL_Number to the number 5 makes the extractor return none. -/
theorem C10_nonstring_field_aborts_witness :
    extract_shipping_details_response
        (fun _ => some (Json.obj [("BL_Number".toList, Json.num 5)]))
        ("{5}".toList) = none := by
  exact C10_nonstring_field_aborts
    (fun _ => some (Json.obj [("BL_Number".toList, Json.num 5)]))
    ("{5}".toList) ("{5}".toList)
    [("BL_Number".toList, Json.num 5)] (Json.num 5)
    (by decide) rfl (Or.inl ⟨rfl, rfl⟩)

/-- The sheet row-scan loop issues exactly the update of the first
matching enumerated row, or none. -/
theorem sheetLookupLoop_eq (rows : List (List (List Char))) :
    ∀ (i : Nat) (container bl : List Char),
      sheetLookupLoop rows i container bl
        = match ((rows.enumFrom i).find? (fun p =>
            decide (0 < p.fst) && decide (3 < p.snd.length)
              && containsSub (p.snd.getD 3 []) container)).map Prod.fst with
          | some j => [SheetUpdate.mk ("E".toList) (j + 1) bl]
          | none => [] := by
  induction rows with
  | nil => intro i container bl; rfl
  | cons row rest ih =>
    intro i container bl
    rw [sheetLookupLoop, List.enumFrom]
    by_cases h : 0 < i ∧ 3 < row.length
        ∧ containsSub (row.getD 3 []) container = true
    · rw [if_pos h, List.find?_cons_of_pos]
      · rfl
      · simp only [Bool.and_eq_true, decide_eq_true_eq]
        exact ⟨⟨h.1, h.2.1⟩, h.2.2⟩
    · rw [if_neg h, ih, List.find?_cons_of_neg]
      intro habs
      apply h
      simp only [Bool.and_eq_true, decide_eq_true_eq] at habs
      exact ⟨habs.1.1, habs.1.2, habs.2⟩

/-- C8: the sheet-reconciliation step issues exactly one update, in
column E at 1-based row index+1 with the latest BL number, for the first
scanned row after the header whose cell of index 3 exists and contains
the container identifier as a substring, and no update when no row
matches; on the two-row example sheet with container TEMU1234567 the
single update targets E2. -/
theorem C8_sheet_reconciliation (sheet : List (List (List Char)))
    (container bl : List Char) :
    sheetsStep sheet container bl
        = (if container ≠ []
              ∧ containsSub container ("NOT_FOUND".toList) = false then
            match sheetFirstMatch container sheet with
            | some i => [SheetUpdate.mk ("E".toList) (i + 1) bl]
            | none => []
          else [])
      ∧ sheetsStep
          [["header".toList],
           ["x".toList, "y".toList, "z".toList, "TEMU1234567".toList]]
          ("TEMU1234567".toList) ("BL-XYZ".toList)
          = [SheetUpdate.mk ("E".toList) 2 ("BL-XYZ".toList)] := by
  refine ⟨?_, by decide⟩
  rw [sheetsStep]
  by_cases hg : container ≠ []
      ∧ containsSub container ("NOT_FOUND".toList) = false
  · rw [if_pos hg, if_pos hg, sheetLookupLoop_eq]
    simp only [sheetFirstMatch, List.enum]
  · rw [if_neg hg, if_neg hg]
